import Mathlib

/-!
Verification of the `wiki` crate's core (parameter encoding, continuation
generator stream, session/auth lifecycle) against its natural-language
specification.  Definitions are shallow embeddings of the Rust source:

* `src/req.rs` — `MultiValueEncoder`, `encode_multivalue`, `HasValue`,
  `EnumSet` and its `WriteUrlValue` impl, the `Edit` request record;
* `src/url.rs` — the `WriteUrlValue` impls for `Option`, `bool`, `Vec`,
  `String` (a writer is modelled at the pair level, exactly the view the
  source's `SerdeAdaptor` exposes: an ordered list of `(name, value)` pairs);
* `src/generators.rs` / `src/gen.rs` — the generator state machine
  (`State`, `State::values`, the poll loop) driven against a scripted
  transport;
* `src/api.rs` — `mkurl_with_ext` (continuation merging), `Site::login`'s
  `login.result` check, and `Page::save`;
* `src/wikiproc/src/derive.rs` — the field-to-wire-name mapping the
  `WriteUrl` derive generates (lowercased field names, `wp(name)` overrides,
  flatten, `mutual_exclusive` unions, `NamedEnum`/`BitflaggedEnum` impls
  with power-of-two flags).
-/

/-- Wire key/value pair, the unit the source's `UrlParamWriter` receives
(`SerdeAdaptor` in `src/url.rs` serializes exactly this pair stream;
percent-encoding of the final query string is not modelled). -/
abbrev UPair := String × String

/-- The unit separator character `0x1F` used by the MediaWiki API for
multi-values whose elements contain `|` (`'\u{1F}'` in `src/req.rs`). -/
def unitSep : Char := Char.ofNat 0x1F

/-- The unit separator as a one-character string. -/
def unitSepStr : String := String.singleton unitSep

/-- `MultiValueEncoder` from `src/req.rs` lines 183-215: accumulated string,
separator character, and the `empty` flag that suppresses the separator
before the first pushed value. -/
structure MultiValueEncoder where
  s : String
  sep : Char
  empty : Bool

/-- `MultiValueEncoder::new` (`src/req.rs`): when `use_unicode_separator`
is set the accumulator starts with a leading `0x1F` and the separator is
`0x1F`; otherwise it starts empty and the separator is `|`. -/
def MultiValueEncoder.new (useUnicodeSeparator : Bool) : MultiValueEncoder where
  s := if useUnicodeSeparator then unitSepStr else ""
  sep := if useUnicodeSeparator then unitSep else '|'
  empty := true

/-- `MultiValueEncoder::push`: emit the separator unless this is the first
value, then append the value. -/
def MultiValueEncoder.push (e : MultiValueEncoder) (v : String) : MultiValueEncoder :=
  let e := if e.empty then { e with empty := false } else { e with s := e.s.push e.sep }
  { e with s := e.s ++ v }

/-- `MultiValueEncoder::build`: return the accumulated string. -/
def MultiValueEncoder.build (e : MultiValueEncoder) : String := e.s

/-- The `HasValue` trait of `src/req.rs` lines 147-150, reified as data:
the `CAUTIOUS` associated constant and the string view of a value (the
source's CPS-style `value(accept)` method applied to the identity). -/
structure HasValue (α : Type) where
  cautious : Bool
  value : α → String

/-- `impl<T: NamedEnum> HasValue for T` (`src/req.rs` lines 152-157):
closed wp-derived enums are not cautious (`CAUTIOUS = false`) and their
value is the variant's wire name. -/
def namedEnumHasValue (variantName : α → String) : HasValue α :=
  ⟨false, variantName⟩

/-- `impl HasValue for String` (`src/req.rs` lines 159-164): strings are
cautious (`CAUTIOUS = true`) and are their own value. -/
def stringHasValue : HasValue String :=
  ⟨true, id⟩

/-- The `has_value_to_string!` instances (`src/req.rs` lines 166-181,
`i32`/`u32`/`u64`): not cautious, value is the decimal rendering. -/
def natHasValue : HasValue Nat :=
  ⟨false, toString⟩

/-- `encode_multivalue` (`src/req.rs` lines 218-231): scan all values for
`|` (only when the value type is cautious), then fold them through a
`MultiValueEncoder`. -/
def encode_multivalue (inst : HasValue α) (values : List α) : String :=
  let useUnicode := inst.cautious && values.any fun i => (inst.value i).contains '|'
  (values.foldl (fun e x => e.push (inst.value x)) (MultiValueEncoder.new useUnicode)).build

/-- Reference join used to state the spec's multi-value encoding examples:
values joined by `sep` with no leading or trailing separator. -/
def joinWith (sep : String) : List String → String
  | [] => ""
  | [x] => x
  | x :: xs => x ++ sep ++ joinWith sep xs

/-- `EnumSet<T>` (`src/req.rs` lines 109-114): an ordered collection of
closed-enum variants backed by a bitmask (`flag`) plus the insertion-order
list of values.  The `T::Bitflag` integer types (`u8`..`u64`) are modelled
as `Nat` bitmasks. -/
structure EnumSet (α : Type) where
  flag : Nat
  values : List α

/-- The statically known data of a `#[derive(WriteUrl)]` closed enum
(`src/wikiproc/src/derive.rs` lines 231-274): the generated `NamedEnum`
wire name (lowercased variant identifier or the `#[wp(name = "...")]`
override), the generated `BitflaggedEnum` flag (`1 << variant index`), and
the generated `ser_additional_only` body (extra pairs from payload
fields; empty for unit variants). -/
structure WpEnum (α : Type) where
  variantName : α → String
  flagOf : α → Nat
  serAdditionalOnly : α → List UPair

/-- `EnumSet::new` (`src/req.rs`). -/
def EnumSet.new : EnumSet α := ⟨0, []⟩

/-- `EnumSet::new_one` (`src/req.rs`). -/
def EnumSet.newOne (E : WpEnum α) (x : α) : EnumSet α := ⟨E.flagOf x, [x]⟩

/-- `EnumSet::insert` (`src/req.rs` lines 131-138): if the variant's flag
already overlaps the set's bitmask, return `false` and leave the set
unchanged; otherwise or-in the flag, append the value, return `true`. -/
def EnumSet.insert (E : WpEnum α) (s : EnumSet α) (x : α) : EnumSet α × Bool :=
  if s.flag &&& E.flagOf x ≠ 0 then (s, false)
  else ({ flag := s.flag ||| E.flagOf x, values := s.values ++ [x] }, true)

/-- `impl FromIterator for EnumSet<T>` (`src/req.rs` lines 247-253) and
`impl From<[T; LEN]> for EnumSet<T>` (lines 267-278): both collect every
element of the input into `values` (no duplicate check) while or-ing all
flags together. -/
def EnumSet.ofList (E : WpEnum α) (l : List α) : EnumSet α :=
  { flag := l.foldl (fun f x => f ||| E.flagOf x) 0, values := l }

/-- `impl WriteUrlValue for EnumSet<T>` (`src/req.rs` lines 233-245):
write one pair whose value is `encode_multivalue` over the stored values
(using the `NamedEnum`-derived `HasValue`, hence `CAUTIOUS = false`),
then each value's extra pairs. -/
def EnumSet.ser (E : WpEnum α) (name : String) (s : EnumSet α) : List UPair :=
  (name, encode_multivalue (namedEnumHasValue E.variantName) s.values)
    :: s.values.flatMap E.serAdditionalOnly

/-- `RvSlot` (`src/req.rs` lines 429-434): a wp-derived closed enum with
variants `Main` (wire name `main`, flag `1`) and `All` (wire-name override
`*`, flag `2`); both are unit variants, so no extra pairs. -/
inductive RvSlot where
  | main
  | all

/-- Wire name of an `RvSlot` variant as generated by the derive. -/
def RvSlot.variantName : RvSlot → String
  | .main => "main"
  | .all => "*"

/-- Bitflag of an `RvSlot` variant as generated by the derive. -/
def RvSlot.flagOf : RvSlot → Nat
  | .main => 1
  | .all => 2

/-- The derive-generated data of `RvSlot`. -/
def rvSlotEnum : WpEnum RvSlot := ⟨RvSlot.variantName, RvSlot.flagOf, fun _ => []⟩

/-- A wp-derived closed enum whose first variant carries a wire-name
override containing `|` (the derive accepts any `#[wp(name = "...")]`
string literal, as `RvSlot::All`'s `*` shows); used to probe the claimed
unit-separator fallback for closed enums.  Wire names: `a|x` and `b`. -/
inductive PipeyVariant where
  | pipey
  | plain

/-- Wire name of a `PipeyVariant` (the first contains a literal `|`). -/
def PipeyVariant.variantName : PipeyVariant → String
  | .pipey => "a|x"
  | .plain => "b"

/-- Bitflag of a `PipeyVariant` variant. -/
def PipeyVariant.flagOf : PipeyVariant → Nat
  | .pipey => 1
  | .plain => 2

/-- The derive-generated data of `PipeyVariant`. -/
def pipeyEnum : WpEnum PipeyVariant := ⟨PipeyVariant.variantName, PipeyVariant.flagOf, fun _ => []⟩

/-- `impl WriteUrlValue for String` (`src/url.rs` lines 108-112): one pair. -/
def serString (name : String) (v : String) : List UPair := [(name, v)]

/-- The `display_impls!` instances (`src/boring_impls.rs`, `u32` etc.):
one pair with the decimal rendering. -/
def serNat (name : String) (v : Nat) : List UPair := [(name, toString v)]

/-- `impl<T: WriteUrlValue> WriteUrlValue for Option<T>` (`src/url.rs`
lines 124-137): `None` writes nothing, `Some` delegates. -/
def serOption (serT : String → α → List UPair) (name : String) : Option α → List UPair
  | none => []
  | some x => serT name x

/-- `impl WriteUrlValue for bool` (`src/url.rs` lines 148-155): `true`
writes a pair with the empty string as value, `false` writes nothing. -/
def serBool (name : String) : Bool → List UPair
  | true => [(name, "")]
  | false => []

/-- `impl<T: WriteUrlValue + HasValue> WriteUrlValue for Vec<T>`
(`src/url.rs` lines 157-172): an empty vector writes nothing; otherwise
one multi-value pair followed by each element's extra pairs. -/
def serVec (inst : HasValue α) (addT : α → List UPair) (name : String) (v : List α) : List UPair :=
  if v.isEmpty then []
  else (name, encode_multivalue inst v) :: v.flatMap addT

/-- `PageSpec` (`src/req.rs` lines 450-455): a `#[wp(mutual_exclusive)]`
union; exactly one pair is emitted, named by the chosen variant's wire
name (`title` or `pageid`). -/
inductive PageSpec where
  | title (t : String)
  | pageId (id : Nat)

/-- Serialization of `PageSpec` per the `mutual_exclusive` derive branch
(`src/wikiproc/src/derive.rs` lines 205-230). -/
def PageSpec.ser : PageSpec → List UPair
  | .title t => [("title", t)]
  | .pageId id => [("pageid", toString id)]

/-- `EditSection` (`src/req.rs` lines 82-107). -/
inductive EditSection where
  | num (n : Nat)
  | new (title : String)
  | custom (s : String)

/-- `impl WriteUrlValue for EditSection` (`src/req.rs` lines 89-98):
`New` writes `section=new` plus a `sectiontitle` pair. -/
def EditSection.ser (name : String) : EditSection → List UPair
  | .custom s => [(name, s)]
  | .num n => [(name, toString n)]
  | .new title => [(name, "new"), ("sectiontitle", title)]

/-- `Watchlist` (`src/req.rs` lines 457-463): a wp-derived unit enum. -/
inductive Watchlist where
  | noChange
  | preferences
  | unwatch
  | watch

/-- Wire name of a `Watchlist` variant (lowercased identifier). -/
def Watchlist.variantName : Watchlist → String
  | .noChange => "nochange"
  | .preferences => "preferences"
  | .unwatch => "unwatch"
  | .watch => "watch"

/-- Serialization of `Watchlist` per the named-enum derive branch: the
variant's wire name, no extra pairs. -/
def serWatchlist (name : String) (w : Watchlist) : List UPair :=
  [(name, w.variantName)]

/-- The `Edit` request record (`src/req.rs` lines 465-495), fields in
declaration order.  `MwTimestamp` fields are modelled by their rendered
RFC 3339 string (`src/types.rs` lines 39-43 writes exactly that string). -/
structure Edit where
  spec : PageSpec
  «section» : Option EditSection
  text : Option String
  summary : Option String
  tags : Option (List String)
  minor : Bool
  notminor : Bool
  bot : Bool
  baserevid : Option Nat
  basetimestamp : Option String
  starttimestamp : Option String
  recreate : Bool
  createonly : Bool
  nocreate : Bool
  watchlist : Option Watchlist
  watchlistexpiry : Option String
  md5 : Option String
  prependtext : Option String
  appendtext : Option String
  undo : Option Nat
  undoafter : Option Nat
  redirect : Bool
  contentformat : Option String
  contentmodel : Option String
  token : String
  captchaword : Option String
  captchaid : Option String

/-- The derive-generated `WriteUrlParams` impl for `Edit`: each field in
declaration order, `spec` flattened (`#[wp(flatten)]`), every other field
forked under its lowercased name. -/
def Edit.ser (e : Edit) : List UPair :=
  PageSpec.ser e.spec
    ++ serOption EditSection.ser "section" e.«section»
    ++ serOption serString "text" e.text
    ++ serOption serString "summary" e.summary
    ++ serOption (serVec stringHasValue fun _ => []) "tags" e.tags
    ++ serBool "minor" e.minor
    ++ serBool "notminor" e.notminor
    ++ serBool "bot" e.bot
    ++ serOption serNat "baserevid" e.baserevid
    ++ serOption serString "basetimestamp" e.basetimestamp
    ++ serOption serString "starttimestamp" e.starttimestamp
    ++ serBool "recreate" e.recreate
    ++ serBool "createonly" e.createonly
    ++ serBool "nocreate" e.nocreate
    ++ serOption serWatchlist "watchlist" e.watchlist
    ++ serOption serString "watchlistexpiry" e.watchlistexpiry
    ++ serOption serString "md5" e.md5
    ++ serOption serString "prependtext" e.prependtext
    ++ serOption serString "appendtext" e.appendtext
    ++ serOption serNat "undo" e.undo
    ++ serOption serNat "undoafter" e.undoafter
    ++ serBool "redirect" e.redirect
    ++ serOption serString "contentformat" e.contentformat
    ++ serOption serString "contentmodel" e.contentmodel
    ++ serString "token" e.token
    ++ serOption serString "captchaword" e.captchaword
    ++ serOption serString "captchaid" e.captchaid

/-- `Main::edit` serialized by `mkurl` (`src/api.rs` lines 194-202) at the
pair level: the `action=edit` pair from the `Action` enum's wire name, the
edit's own pairs, then the `Format::Json { formatversion: 2 }` pairs. -/
def mainEditPairs (e : Edit) : List UPair :=
  ("action", "edit") :: Edit.ser e ++ [("format", "json"), ("formatversion", "2")]

/-- A JSON value (`serde_json::Value`), used for continuation tokens,
response bodies and API error payloads. -/
inductive JValue where
  | null
  | bool (b : Bool)
  | num (n : Int)
  | str (s : String)
  | arr (elems : List JValue)
  | obj (fields : List (String × JValue))

/-- The error type (`crate::Error` in `src/lib.rs`), restricted to the
variants the modelled code can produce. -/
inductive WErr where
  | transport (code : Nat)
  | decode (msg : String)
  | mediaWiki (v : JValue)
  | urlEncode

/-- `serde_urlencoded` rendering of a primitive JSON value; `None` for
values the form encoder rejects (null, arrays, nested objects). -/
def jPrimString : JValue → Option String
  | .str s => some s
  | .num n => some (toString n)
  | .bool b => some (if b then "true" else "false")
  | _ => none

/-- `Simple::add_serde` (`src/url.rs` lines 62-76) applied to a
continuation value: `serde_urlencoded::to_string(ext)` turns a flat JSON
object into its key/value pairs (appended after the existing query) and
fails on anything the form encoder cannot represent. -/
def addSerde : JValue → Except WErr (List UPair)
  | .obj fields =>
    fields.mapM fun kv =>
      match jPrimString kv.2 with
      | some s => Except.ok (kv.1, s)
      | none => Except.error WErr.urlEncode
  | _ => Except.error WErr.urlEncode

/-- A flat all-string JSON object, the shape of a real MediaWiki
`continue` token. -/
def strObj (fields : List UPair) : JValue :=
  JValue.obj (fields.map fun kv => (kv.1, JValue.str kv.2))

/-- The generator state machine (`State` in `src/gen.rs` lines 21-27 and
`src/generators.rs` lines 29-38; the latter's `Fut` state is the awaited
response and is resolved atomically by the scripted transport here). -/
inductive GenState (α : Type) where
  | init
  | values (v : List α) (cont : Option JValue)
  | cont (c : JValue)
  | done

/-- `State::values` (`src/gen.rs` lines 29-41, `src/generators.rs` lines
40-52): an empty buffer becomes `Cont` when a token is pending, else
`Done`; a non-empty buffer stays buffered. -/
def GenState.mkValues (v : List α) (c : Option JValue) : GenState α :=
  if v.isEmpty then
    match c with
    | some c => GenState.cont c
    | none => GenState.done
  else GenState.values v c

/-- Termination measure for driving the state machine: pending buffered
values plus one. -/
def GenState.weight : GenState α → Nat
  | .values v _ => v.length + 1
  | _ => 0

/-- One scripted transport response: either a transport/decode/API error
(`send_parse` result) or the untangled `(continue token?, items)` pair. -/
abbrev Resp (α : Type) := Except WErr (Option JValue × List α)

/-- Observable trace of one generator stream run: the query-pair lists of
the requests it issued, the items/errors it yielded, and whether it hit a
`panic`/failed assertion. -/
structure Trace (α : Type) where
  requests : List (List UPair)
  outputs : List (Except WErr α)
  panicked : Bool

/-- The generator poll loop (`GeneratorStream::poll_next` in
`src/generators.rs` lines 62-130, equivalently the `stream::unfold` body
of `WikiGenerator::into_stream` in `src/gen.rs` lines 49-93) run against
a scripted transport.  `mainPairs` is the encoded request that
`create_request` + `mkurl` produce each round.  In `Init`/`Cont` the
request is issued and the next scripted response consumed (an exhausted
script models a forever-pending transport); a received batch is buffered
and items are yielded by `Vec::pop` (last element first); in `Cont` the
request is `mkurl_with_ext`, the main pairs plus the continuation
object's pairs; a response with no items panics on the source's
`assert!(cont.is_none(), "Cannot continue without return value")` when a
token is present, else ends the stream; `tryit!` turns any error into one
yielded `Err` with the state set to `Done`. -/
def runGen (mainPairs : List UPair) : GenState α → List (Resp α) → Trace α
  | .done, _ => ⟨[], [], false⟩
  | .values v c, script =>
    match h : v.getLast? with
    | none => ⟨[], [], true⟩
    | some x =>
      let t := runGen mainPairs (GenState.mkValues v.dropLast c) script
      ⟨t.requests, .ok x :: t.outputs, t.panicked⟩
  | .init, [] => ⟨[mainPairs], [], false⟩
  | .init, .error e :: rest =>
    let t := runGen mainPairs .done rest
    ⟨mainPairs :: t.requests, .error e :: t.outputs, t.panicked⟩
  | .init, .ok (co, items) :: rest =>
    match hi : items.getLast? with
    | some x =>
      let t := runGen mainPairs (GenState.mkValues items.dropLast co) rest
      ⟨mainPairs :: t.requests, .ok x :: t.outputs, t.panicked⟩
    | none => ⟨[mainPairs], [], co.isSome⟩
  | .cont c, [] =>
    match ha : addSerde c with
    | .error e => ⟨[], [.error e], false⟩
    | .ok ext => ⟨[mainPairs ++ ext], [], false⟩
  | .cont c, .error e :: rest =>
    match ha : addSerde c with
    | .error e2 => ⟨[], [.error e2], false⟩
    | .ok ext =>
      let t := runGen mainPairs .done rest
      ⟨(mainPairs ++ ext) :: t.requests, .error e :: t.outputs, t.panicked⟩
  | .cont c, .ok (co, items) :: rest =>
    match ha : addSerde c with
    | .error e => ⟨[], [.error e], false⟩
    | .ok ext =>
      match hi : items.getLast? with
      | some x =>
        let t := runGen mainPairs (GenState.mkValues items.dropLast co) rest
        ⟨(mainPairs ++ ext) :: t.requests, .ok x :: t.outputs, t.panicked⟩
      | none => ⟨[mainPairs ++ ext], [], co.isSome⟩
termination_by st script => (script.length, st.weight)
decreasing_by
all_goals simp_wf
all_goals first
  | (apply Prod.Lex.left; omega)
  | (apply Prod.Lex.right
     have hw : ∀ (l : List α) (co : Option JValue), (GenState.mkValues l co).weight ≤ l.length + 1 := by
       intro l co
       unfold GenState.mkValues
       by_cases hl : l.isEmpty
       · simp only [hl, if_true]
         cases co <;> simp [GenState.weight]
       · simp [hl, GenState.weight]
     refine lt_of_le_of_lt (hw _ _) ?_
     have hv : v ≠ [] := by
       intro hv
       subst hv
       simp at h
     have hp : 0 < v.length := List.length_pos.mpr hv
     simp only [GenState.weight, List.length_dropLast]
     omega)

/-- `serde_json::Value::get` on an object: look up a key (`src/api.rs`
line 336 uses `v.get("login").and_then(|v| v.get("result"))`). -/
def jGet (v : JValue) (key : String) : Option JValue :=
  match v with
  | .obj fields => (fields.find? fun kv => kv.1 == key).map fun kv => kv.2
  | _ => none

/-- The login success check shared by `Site::login` (`src/api.rs` lines
336-338) and `SiteBuilder::<AuthorizedAccess>::build` (`src/builder.rs`
lines 158-161): `v.get("login").and_then(get "result").map_or(false, |v|
v == "Success")`.  Comparing a JSON value against the literal `"Success"`
is true exactly for the string value `"Success"`. -/
def loginResultOk (v : JValue) : Bool :=
  match (jGet v "login").bind fun l => jGet l "result" with
  | some (.str s) => s == "Success"
  | _ => false

/-- Outcome of the login result inspection: proceed with the logged-in
flow, or abort the process. -/
inductive LoginOutcome where
  | success
  | panicked (msg : String)

/-- The panic message of `src/api.rs` line 363 and `src/builder.rs` line
163. -/
def vandalMsg : String :=
  "Vandalism detected. Your actions will be logged at [[WP:LTA/BotAbuser]]"

/-- What `Site::login` (`src/api.rs` lines 334-364) and the authorized
`SiteBuilder::build` (`src/builder.rs` lines 156-165) do with the login
response body: proceed on `login.result == "Success"`, otherwise
`panic!("Vandalism detected. ...")` — a process abort, not an error
return. -/
def loginStep (v : JValue) : LoginOutcome :=
  if loginResultOk v then .success else .panicked vandalMsg

/-- A JSON body `{"login": {"result": s}}`, the shape of a MediaWiki
login response. -/
def mkLoginResp (s : String) : JValue :=
  JValue.obj [("login", JValue.obj [("result", JValue.str s)])]

/-- `crate::Page` (`src/lib.rs` / `src/api.rs` lines 281-287): remote
content copy, latest revision id, page id, the dirty flag `changed`, and
the optional back-reference to the logged-in `Bot` (modelled by its
presence). -/
structure Page where
  content : String
  latestRevision : Nat
  id : Nat
  changed : Bool
  bot : Bool

/-- Externally visible effects of `Page::save`, in order: the CSRF token
fetch (`get_tokens::<CsrfToken>`), the edit POST, and the rate-limit tick
(`bot.control().await.tick()`). -/
inductive SaveEffect where
  | fetchCsrfToken
  | postEdit
  | rateLimitTick
deriving DecidableEq

/-- Result of `Page::save`: success with the effects performed, or a
process abort. -/
inductive SaveResult where
  | ok (effects : List SaveEffect)
  | panicked (msg : String)

/-- `Page::save` (`src/api.rs` lines 451-476): with no bot back-reference
it panics ("User is not logged in. ..."); with a bot, an unchanged page
returns `Ok(())` before any token fetch, request, or rate-limit tick; a
changed page fetches a CSRF token, POSTs the edit, then ticks the
rate-limit gate. -/
def Page.save (p : Page) : SaveResult :=
  if p.bot then
    if !p.changed then .ok []
    else .ok [.fetchCsrfToken, .postEdit, .rateLimitTick]
  else .panicked "User is not logged in. This action will be logged."

/-- Separator-prefixed concatenation: the exact string a fold of
`MultiValueEncoder::push` appends after the first value. -/
def sepJoin (c : Char) : List String → String
  | [] => ""
  | v :: vs => String.singleton c ++ v ++ sepJoin c vs

/-- The key (wire name) components of a pair list. -/
def keys (l : List UPair) : List String := l.map Prod.fst

/-- A `String.push` is an append of a singleton. -/
theorem push_eq_append (s : String) (c : Char) : s.push c = s ++ String.singleton c := rfl

/-- Folding `push` over an encoder that has already seen a value appends
each further value behind a separator. -/
theorem foldl_push_state (vs : List String) (s0 : String) (c : Char) :
    vs.foldl MultiValueEncoder.push ⟨s0, c, false⟩ = ⟨s0 ++ sepJoin c vs, c, false⟩ := by
  induction vs generalizing s0 with
  | nil => simp [sepJoin, String.append_empty]
  | cons v vs ih =>
    simp only [List.foldl_cons]
    have hpush : MultiValueEncoder.push ⟨s0, c, false⟩ v
        = ⟨s0 ++ String.singleton c ++ v, c, false⟩ := by
      simp [MultiValueEncoder.push, push_eq_append]
    rw [hpush, ih]
    simp [sepJoin, String.append_assoc]

/-- `joinWith` after a first value is that value followed by the
separator-prefixed rest. -/
theorem joinWith_cons_eq (c : Char) (v : String) (vs : List String) :
    joinWith (String.singleton c) (v :: vs) = v ++ sepJoin c vs := by
  induction vs generalizing v with
  | nil => simp [joinWith, sepJoin, String.append_empty]
  | cons w ws ih =>
    simp only [joinWith, sepJoin]
    rw [ih w]
    simp [String.append_assoc]

/-- `String.contains` is a `List.any` over the string's characters. -/
theorem string_contains_eq (s : String) (c : Char) : s.contains c = s.1.any (· == c) := by
  rw [String.contains, String.any_eq]

/-- `encode_multivalue` in closed form: an optional leading unit
separator followed by the values joined with the chosen separator, the
separator being `0x1F` exactly when the value type is cautious and some
value contains `|`. -/
theorem encode_multivalue_eq (inst : HasValue α) (values : List α) :
    encode_multivalue inst values =
      (if inst.cautious && values.any fun i => (inst.value i).contains '|' then unitSepStr
        else "")
      ++ joinWith
        (String.singleton
          (if inst.cautious && values.any fun i => (inst.value i).contains '|' then unitSep
            else '|'))
        (values.map inst.value) := by
  show (values.foldl (fun e x => e.push (inst.value x))
      (MultiValueEncoder.new
        (inst.cautious && values.any fun i => (inst.value i).contains '|'))).build = _
  rw [← List.foldl_map]
  generalize (inst.cautious && values.any fun i => (inst.value i).contains '|') = u
  cases hvs : values.map inst.value with
  | nil =>
    cases u <;>
      simp [MultiValueEncoder.new, MultiValueEncoder.build, joinWith, String.append_empty]
  | cons v vs =>
    have hfirst : MultiValueEncoder.push (MultiValueEncoder.new u) v
        = ⟨(if u then unitSepStr else "") ++ v, if u then unitSep else '|', false⟩ := by
      simp [MultiValueEncoder.push, MultiValueEncoder.new]
    simp only [List.foldl_cons, hfirst, foldl_push_state, MultiValueEncoder.build]
    rw [joinWith_cons_eq]
    simp [String.append_assoc]

/-- C6: for arbitrary string values (the cautious `HasValue` instance),
the encoding joins with `|` when no value contains `|`, and switches to
the leading-`0x1F`, `0x1F`-separated form when some value contains `|`. -/
theorem c6_string_multivalue (values : List String) :
    ((values.any fun v => v.contains '|') = false →
      encode_multivalue stringHasValue values = joinWith "|" values)
    ∧ ((values.any fun v => v.contains '|') = true →
      encode_multivalue stringHasValue values = unitSepStr ++ joinWith unitSepStr values) := by
  have hpipe : String.singleton '|' = "|" := by decide
  constructor
  · intro h
    rw [encode_multivalue_eq]
    simp [stringHasValue, h, hpipe]
  · intro h
    rw [encode_multivalue_eq]
    simp [stringHasValue, h, unitSepStr]

/-- Witness for C6 at the spec's own examples: `["a","b"]` encodes to
`a|b` and `["a|x","b"]` encodes to `0x1F a|x 0x1F b`. -/
theorem c6_string_multivalue_witness :
    encode_multivalue stringHasValue ["a", "b"] = "a|b"
    ∧ encode_multivalue stringHasValue ["a|x", "b"]
        = unitSepStr ++ "a|x" ++ unitSepStr ++ "b" := by
  constructor
  · exact ((c6_string_multivalue ["a", "b"]).1 (by simp [string_contains_eq])).trans
      (by simp [joinWith])
  · exact ((c6_string_multivalue ["a|x", "b"]).2 (by simp [string_contains_eq])).trans
      (by simp [joinWith, unitSepStr, String.append_assoc])

/-- C7 counterexample: a wp-derived closed enum whose first variant's
wire name is `a|x` (names are arbitrary `#[wp(name = "...")]` literals).
Encoding the set `[pipey, plain]` joins with `|` — producing `a|x|b` —
and does not switch to the claimed leading-`0x1F` form, because the
`NamedEnum` `HasValue` impl fixes `CAUTIOUS = false` and the pipe scan is
short-circuited away. -/
theorem c7_counterexample :
    EnumSet.ser pipeyEnum "props"
        (EnumSet.ofList pipeyEnum [PipeyVariant.pipey, PipeyVariant.plain])
      = [("props", "a|x|b")]
    ∧ EnumSet.ser pipeyEnum "props"
        (EnumSet.ofList pipeyEnum [PipeyVariant.pipey, PipeyVariant.plain])
      ≠ [("props", unitSepStr ++ "a|x" ++ unitSepStr ++ "b")] := by
  have h : EnumSet.ser pipeyEnum "props"
      (EnumSet.ofList pipeyEnum [PipeyVariant.pipey, PipeyVariant.plain])
      = [("props", "a|x|b")] := by
    unfold EnumSet.ser
    rw [encode_multivalue_eq]
    simp [EnumSet.ofList, pipeyEnum, namedEnumHasValue, PipeyVariant.variantName, joinWith,
      String.append_assoc]
    decide
  refine ⟨h, ?_⟩
  rw [h]
  intro hcontra
  have : ("a|x|b" : String) = unitSepStr ++ "a|x" ++ unitSepStr ++ "b" := by
    injection hcontra with h1 _
    injection h1 with _ h2
  rw [show (unitSepStr ++ "a|x" ++ unitSepStr ++ "b" : String)
    = "\x1Fa|x\x1Fb" from by decide] at this
  exact absurd this (by decide)

/-- C7 amended: an `EnumSet` of closed-enum variants always joins the
wire names with `|`; the unit-separator fallback never applies because
the `NamedEnum` `HasValue` instance sets `CAUTIOUS = false`, so the
pipe scan is skipped no matter what the wire names contain. -/
theorem c7_enumset_always_pipe (E : WpEnum α) (name : String) (s : EnumSet α) :
    EnumSet.ser E name s
      = (name, joinWith "|" (s.values.map E.variantName))
        :: s.values.flatMap E.serAdditionalOnly := by
  unfold EnumSet.ser
  rw [encode_multivalue_eq]
  simp [namedEnumHasValue, show String.singleton '|' = "|" from by decide]

/-- A bit of a fold of bitwise-ors is set when it is set in the seed or
in one of the or-ed flags. -/
theorem testBit_foldl_or (g : α → Nat) (l : List α) (a : Nat) (i : Nat) :
    (l.foldl (fun f x => f ||| g x) a).testBit i
      = (a.testBit i || l.any fun x => (g x).testBit i) := by
  induction l generalizing a with
  | nil => simp
  | cons x xs ih => simp [List.foldl_cons, ih, Nat.testBit_lor, Bool.or_assoc]

/-- C10: `EnumSet::insert` refuses a variant whose flag is already in the
bitmask (returning the set unchanged with `false`), but `FromIterator`
and the array conversion store every input element in order without
deduplicating, so a repeated variant is serialized repeatedly —
`[Main, Main]` yields the wire value `main|main`. -/
theorem c10_enumset_dedup_asymmetry :
    (∀ (α : Type) (E : WpEnum α) (l : List α) (x : α),
      x ∈ l → E.flagOf x ≠ 0 →
      EnumSet.insert E (EnumSet.ofList E l) x = (EnumSet.ofList E l, false))
    ∧ (∀ (α : Type) (E : WpEnum α) (l : List α), (EnumSet.ofList E l).values = l)
    ∧ EnumSet.ser rvSlotEnum "rvslots"
        (EnumSet.ofList rvSlotEnum [RvSlot.main, RvSlot.main])
      = [("rvslots", "main|main")] := by
  refine ⟨?_, fun α E l => rfl, ?_⟩
  · intro α E l x hmem hflag
    have hov : (EnumSet.ofList E l).flag &&& E.flagOf x ≠ 0 := by
      obtain ⟨i, hi⟩ := Nat.ne_zero_implies_bit_true hflag
      intro h0
      have hbit : ((EnumSet.ofList E l).flag &&& E.flagOf x).testBit i = false := by
        rw [h0]
        exact Nat.zero_testBit i
      rw [Nat.testBit_land] at hbit
      have hfl : (EnumSet.ofList E l).flag.testBit i = true := by
        show (l.foldl (fun f x => f ||| E.flagOf x) 0).testBit i = true
        rw [testBit_foldl_or]
        simp only [Nat.zero_testBit, Bool.false_or, List.any_eq_true]
        exact ⟨x, hmem, hi⟩
      rw [hfl, hi] at hbit
      simp at hbit
    simp [EnumSet.insert, hov]
  · unfold EnumSet.ser
    rw [encode_multivalue_eq]
    simp [EnumSet.ofList, rvSlotEnum, namedEnumHasValue, RvSlot.variantName, joinWith]
    decide

/-- Witness for C10's insert clause: inserting `Main` into the singleton
set already holding `Main` returns `false` and leaves the set unchanged. -/
theorem c10_enumset_dedup_asymmetry_witness :
    EnumSet.insert rvSlotEnum (EnumSet.ofList rvSlotEnum [RvSlot.main]) RvSlot.main
      = (EnumSet.ofList rvSlotEnum [RvSlot.main], false) :=
  c10_enumset_dedup_asymmetry.1 RvSlot rvSlotEnum [RvSlot.main] RvSlot.main
    (List.mem_singleton.mpr rfl) (by decide)

/-- Splitting non-membership of a wire name over appended pair lists. -/
theorem nkeys_append {k : String} {l1 l2 : List UPair}
    (h1 : k ∉ keys l1) (h2 : k ∉ keys l2) : k ∉ keys (l1 ++ l2) := by
  simp only [keys, List.map_append, List.mem_append]
  exact fun hc => hc.elim (fun hc => h1 hc) fun hc => h2 hc

/-- `serString` only ever emits its own name. -/
theorem nk_serString {k n v : String} (h : k ≠ n) : k ∉ keys (serString n v) := by
  simp [serString, keys, h]

/-- `serNat` only ever emits its own name. -/
theorem nk_serNat {k n : String} {v : Nat} (h : k ≠ n) : k ∉ keys (serNat n v) := by
  simp [serNat, keys, h]

/-- `serBool` only ever emits its own name. -/
theorem nk_serBool {k n : String} {b : Bool} (h : k ≠ n) : k ∉ keys (serBool n b) := by
  cases b <;> simp [serBool, keys, h]

/-- `serWatchlist` only ever emits its own name. -/
theorem nk_serWatchlist {k n : String} {w : Watchlist} (h : k ≠ n) :
    k ∉ keys (serWatchlist n w) := by
  simp [serWatchlist, keys, h]

/-- `serOption` emits no name its payload serializer would not emit. -/
theorem nk_serOption {β : Type} {k n : String} {serT : String → β → List UPair} {x : Option β}
    (h : ∀ v, k ∉ keys (serT n v)) : k ∉ keys (serOption serT n x) := by
  cases x with
  | none => simp [serOption, keys]
  | some v => exact h v

/-- A string multi-value field only ever emits its own name (string
elements have no extra pairs). -/
theorem nk_serVecString {k n : String} {v : List String} (h : k ≠ n) :
    k ∉ keys (serVec stringHasValue (fun _ => []) n v) := by
  unfold serVec
  by_cases hv : v.isEmpty <;> simp [hv, keys, h]

/-- `PageSpec` only ever emits `title` or `pageid`. -/
theorem nk_PageSpec {k : String} {s : PageSpec} (h1 : k ≠ "title") (h2 : k ≠ "pageid") :
    k ∉ keys (PageSpec.ser s) := by
  cases s <;> simp [PageSpec.ser, keys, h1, h2]

/-- `EditSection` only ever emits its own name or `sectiontitle`. -/
theorem nk_EditSection {k n : String} {s : EditSection} (h1 : k ≠ n)
    (h2 : k ≠ "sectiontitle") : k ∉ keys (EditSection.ser n s) := by
  cases s <;> simp [EditSection.ser, keys, h1, h2]

/-- Sanity check of the `Edit` embedding against the crate's own test
(`src/src/tests/url.rs`): the fully populated edit of that test
serializes to exactly the pairs of the expected query string, in order,
with every `false` flag and absent option omitted. -/
theorem edit_golden_test :
    mainEditPairs
      { spec := PageSpec.title "title"
        «section» := some (EditSection.new "newsection")
        text := none
        summary := none
        tags := some ["a", "b"]
        minor := false
        notminor := false
        bot := true
        baserevid := some 0
        basetimestamp := some "1970-01-01T00:00:00Z"
        starttimestamp := none
        recreate := true
        createonly := true
        nocreate := false
        watchlist := none
        watchlistexpiry := none
        md5 := some "md5"
        prependtext := some "prepend"
        appendtext := some "app"
        undo := none
        undoafter := none
        redirect := true
        contentformat := some "ctfmt"
        contentmodel := some "ctmd"
        token := "token"
        captchaword := some "captchaword"
        captchaid := some "captchaid" }
      = [("action", "edit"), ("title", "title"), ("section", "new"),
        ("sectiontitle", "newsection"), ("tags", "a|b"), ("bot", ""), ("baserevid", "0"),
        ("basetimestamp", "1970-01-01T00:00:00Z"), ("recreate", ""), ("createonly", ""),
        ("md5", "md5"), ("prependtext", "prepend"), ("appendtext", "app"), ("redirect", ""),
        ("contentformat", "ctfmt"), ("contentmodel", "ctmd"), ("token", "token"),
        ("captchaword", "captchaword"), ("captchaid", "captchaid"), ("format", "json"),
        ("formatversion", "2")] := by
  have henc : encode_multivalue stringHasValue ["a", "b"] = "a|b" := by
    rw [encode_multivalue_eq]
    simp [stringHasValue, string_contains_eq, joinWith]
    decide
  simp [mainEditPairs, Edit.ser, serOption, serString, serNat, serBool, serVec, serWatchlist,
    PageSpec.ser, EditSection.ser, henc]
  decide

/-- C8: an absent optional field, a `false` boolean field, and an empty
collection field emit no wire pair at all — stated for the generic
`Option`/`bool`/`Vec` writer impls of `src/url.rs` and, end to end, for
the `Edit` request: the key of such a field never appears in the encoded
output. -/
theorem c8_absent_fields_omitted :
    (∀ (β : Type) (serT : String → β → List UPair) (n : String), serOption serT n none = [])
    ∧ (∀ n : String, serBool n false = [])
    ∧ (∀ (β : Type) (inst : HasValue β) (addT : β → List UPair) (n : String),
        serVec inst addT n [] = [])
    ∧ (∀ e : Edit,
        (e.summary = none → "summary" ∉ keys (Edit.ser e))
        ∧ (e.minor = false → "minor" ∉ keys (Edit.ser e))
        ∧ (e.tags = none ∨ e.tags = some [] → "tags" ∉ keys (Edit.ser e))) := by
  refine ⟨fun β serT n => rfl, fun n => rfl, fun β inst addT n => rfl, fun e => ⟨?_, ?_, ?_⟩⟩
  · intro h
    unfold Edit.ser
    repeat' apply nkeys_append
    all_goals first
      | (rw [h]; simp [serOption, keys])
      | exact nk_PageSpec (by decide) (by decide)
      | exact nk_serOption fun v => nk_EditSection (by decide) (by decide)
      | exact nk_serOption fun v => nk_serString (by decide)
      | exact nk_serOption fun v => nk_serNat (by decide)
      | exact nk_serOption fun v => nk_serWatchlist (by decide)
      | exact nk_serOption fun v => nk_serVecString (by decide)
      | exact nk_serBool (by decide)
      | exact nk_serString (by decide)
  · intro h
    unfold Edit.ser
    repeat' apply nkeys_append
    all_goals first
      | (rw [h]; simp [serBool, keys])
      | exact nk_PageSpec (by decide) (by decide)
      | exact nk_serOption fun v => nk_EditSection (by decide) (by decide)
      | exact nk_serOption fun v => nk_serString (by decide)
      | exact nk_serOption fun v => nk_serNat (by decide)
      | exact nk_serOption fun v => nk_serWatchlist (by decide)
      | exact nk_serOption fun v => nk_serVecString (by decide)
      | exact nk_serBool (by decide)
      | exact nk_serString (by decide)
  · intro h
    unfold Edit.ser
    repeat' apply nkeys_append
    all_goals first
      | (rcases h with h | h <;> rw [h] <;> simp [serOption, serVec, keys])
      | exact nk_PageSpec (by decide) (by decide)
      | exact nk_serOption fun v => nk_EditSection (by decide) (by decide)
      | exact nk_serOption fun v => nk_serString (by decide)
      | exact nk_serOption fun v => nk_serNat (by decide)
      | exact nk_serOption fun v => nk_serWatchlist (by decide)
      | exact nk_serOption fun v => nk_serVecString (by decide)
      | exact nk_serBool (by decide)
      | exact nk_serString (by decide)

/-- Witness for C8: on a concrete edit with `summary = None`,
`minor = false` and `tags = Some([])`, none of the three keys appears in
the output (and the generic writers emit nothing). -/
theorem c8_absent_fields_omitted_witness :
    serOption serString "summary" none = []
    ∧ serBool "minor" false = []
    ∧ serVec stringHasValue (fun _ => []) "tags" [] = []
    ∧ "summary" ∉ keys (Edit.ser
      { spec := PageSpec.title "T", «section» := none, text := none, summary := none,
        tags := some [], minor := false, notminor := false, bot := false, baserevid := none,
        basetimestamp := none, starttimestamp := none, recreate := false, createonly := false,
        nocreate := false, watchlist := none, watchlistexpiry := none, md5 := none,
        prependtext := none, appendtext := none, undo := none, undoafter := none,
        redirect := false, contentformat := none, contentmodel := none, token := "tok",
        captchaword := none, captchaid := none })
    ∧ "minor" ∉ keys (Edit.ser
      { spec := PageSpec.title "T", «section» := none, text := none, summary := none,
        tags := some [], minor := false, notminor := false, bot := false, baserevid := none,
        basetimestamp := none, starttimestamp := none, recreate := false, createonly := false,
        nocreate := false, watchlist := none, watchlistexpiry := none, md5 := none,
        prependtext := none, appendtext := none, undo := none, undoafter := none,
        redirect := false, contentformat := none, contentmodel := none, token := "tok",
        captchaword := none, captchaid := none })
    ∧ "tags" ∉ keys (Edit.ser
      { spec := PageSpec.title "T", «section» := none, text := none, summary := none,
        tags := some [], minor := false, notminor := false, bot := false, baserevid := none,
        basetimestamp := none, starttimestamp := none, recreate := false, createonly := false,
        nocreate := false, watchlist := none, watchlistexpiry := none, md5 := none,
        prependtext := none, appendtext := none, undo := none, undoafter := none,
        redirect := false, contentformat := none, contentmodel := none, token := "tok",
        captchaword := none, captchaid := none }) :=
  ⟨c8_absent_fields_omitted.1 String serString "summary",
    c8_absent_fields_omitted.2.1 "minor",
    c8_absent_fields_omitted.2.2.1 String stringHasValue (fun _ => []) "tags",
    (c8_absent_fields_omitted.2.2.2 _).1 rfl,
    (c8_absent_fields_omitted.2.2.2 _).2.1 rfl,
    (c8_absent_fields_omitted.2.2.2 _).2.2 (Or.inr rfl)⟩

/-- A finished stream yields nothing further, issues no request, and
never panics, no matter how often it is polled. -/
theorem runGen_done (main : List UPair) (script : List (Resp α)) :
    runGen main GenState.done script = ⟨[], [], false⟩ := by
  simp [runGen]

/-- Popping one buffered item: the state machine yields the last element
of the buffer first and rebuilds the state from the remainder. -/
theorem runGen_values_concat (main : List UPair) (v : List α) (x : α) (c : Option JValue)
    (script : List (Resp α)) :
    runGen main (GenState.values (v ++ [x]) c) script
      = { requests := (runGen main (GenState.mkValues v c) script).requests,
          outputs := .ok x :: (runGen main (GenState.mkValues v c) script).outputs,
          panicked := (runGen main (GenState.mkValues v c) script).panicked } := by
  simp only [runGen]
  split
  all_goals simp_all [List.getLast?_concat, List.dropLast_concat]

/-- Draining a buffer yields its items in reverse order and then behaves
as the buffer-free continuation state. -/
theorem runGen_mkValues_drain (main : List UPair) (v : List α) (c : Option JValue)
    (script : List (Resp α)) :
    runGen main (GenState.mkValues v c) script
      = { requests := (runGen main (GenState.mkValues [] c) script).requests,
          outputs := v.reverse.map .ok
            ++ (runGen main (GenState.mkValues [] c) script).outputs,
          panicked := (runGen main (GenState.mkValues [] c) script).panicked } := by
  induction v using List.reverseRecOn with
  | nil => simp
  | append_singleton ys x ih =>
    have hne : GenState.mkValues (ys ++ [x]) c = GenState.values (ys ++ [x]) c := by
      simp [GenState.mkValues]
    rw [hne, runGen_values_concat, ih]
    simp [List.reverse_append]

/-- Polling a fresh stream with a forever-pending transport records the
initial request and produces nothing. -/
theorem runGen_init_pending (main : List UPair) :
    runGen main GenState.init ([] : List (Resp α)) = ⟨[main], [], false⟩ := by
  simp [runGen]

/-- A transport or decode error on the initial request yields exactly one
`Err` and nothing further. -/
theorem runGen_init_error (main : List UPair) (e : WErr) (rest : List (Resp α)) :
    runGen main GenState.init (.error e :: rest) = ⟨[main], [.error e], false⟩ := by
  simp [runGen, runGen_done]

/-- A non-empty first batch: the initial request is recorded, the items
come out in reverse order, and the run continues from the buffer-free
state determined by the continuation token. -/
theorem runGen_init_batch (main : List UPair) (items : List α) (co : Option JValue)
    (rest : List (Resp α)) (h : items ≠ []) :
    runGen main GenState.init (.ok (co, items) :: rest)
      = { requests := main :: (runGen main (GenState.mkValues [] co) rest).requests,
          outputs := items.reverse.map .ok
            ++ (runGen main (GenState.mkValues [] co) rest).outputs,
          panicked := (runGen main (GenState.mkValues [] co) rest).panicked } := by
  rcases (items.eq_nil_or_concat : items = [] ∨ _) with rfl | ⟨ys, x, hys⟩
  · exact absurd rfl h
  · rw [List.concat_eq_append] at hys
    subst hys
    have hstep : runGen main GenState.init (.ok (co, ys ++ [x]) :: rest)
        = { requests := main :: (runGen main (GenState.mkValues ys co) rest).requests,
            outputs := .ok x :: (runGen main (GenState.mkValues ys co) rest).outputs,
            panicked := (runGen main (GenState.mkValues ys co) rest).panicked } := by
      simp only [runGen]
      split
      all_goals simp_all [List.getLast?_concat, List.dropLast_concat]
    rw [hstep, runGen_mkValues_drain]
    simp [List.reverse_append]

/-- An empty batch carrying a continuation token trips the source's
`assert!(cont.is_none(), "Cannot continue without return value")`: the
run panics, yields nothing, and issues no further request. -/
theorem runGen_init_empty_token (main : List UPair) (c : JValue) (rest : List (Resp α)) :
    runGen main GenState.init (.ok (some c, ([] : List α)) :: rest) = ⟨[main], [], true⟩ := by
  simp only [runGen]
  split
  all_goals simp_all

/-- An empty batch with no token ends the stream normally. -/
theorem runGen_init_empty_done (main : List UPair) (rest : List (Resp α)) :
    runGen main GenState.init (.ok (none, ([] : List α)) :: rest) = ⟨[main], [], false⟩ := by
  simp only [runGen]
  split
  all_goals simp_all

/-- Whatever the transport does next, the first request the continuation
state issues is the main request followed by the serialized continuation
pairs. -/
theorem runGen_cont_first_request (main : List UPair) (c : JValue) (ext : List UPair)
    (script : List (Resp α)) (h : addSerde c = .ok ext) :
    (runGen main (GenState.cont c) script).requests.take 1 = [main ++ ext] := by
  cases script with
  | nil =>
    simp only [runGen]
    split
    all_goals simp_all
  | cons r rest =>
    cases r with
    | error e =>
      simp only [runGen]
      split
      all_goals simp_all
    | ok p =>
      obtain ⟨co, items⟩ := p
      simp only [runGen]
      split
      · simp_all
      · split
        all_goals simp_all

/-- A transport or decode error on a continuation request yields exactly
one `Err` and nothing further. -/
theorem runGen_cont_error (main : List UPair) (c : JValue) (ext : List UPair) (e : WErr)
    (rest : List (Resp α)) (h : addSerde c = .ok ext) :
    runGen main (GenState.cont c) (.error e :: rest)
      = ⟨[main ++ ext], [.error e], false⟩ := by
  simp only [runGen]
  split
  all_goals simp_all [runGen_done]

/-- `serde_urlencoded` round-trips a flat all-string object to exactly
its key/value pairs. -/
theorem addSerde_strObj (fields : List UPair) : addSerde (strObj fields) = .ok fields := by
  induction fields with
  | nil => rfl
  | cons kv rest ih =>
    have ih2 : (List.mapM (fun kv => match jPrimString kv.2 with
        | some s => Except.ok (kv.1, s)
        | none => Except.error WErr.urlEncode)
        (rest.map fun kv => (kv.1, JValue.str kv.2)) : Except WErr (List UPair)) = .ok rest := ih
    show (List.mapM (fun kv => match jPrimString kv.2 with
        | some s => Except.ok (kv.1, s)
        | none => Except.error WErr.urlEncode)
        ((kv.1, JValue.str kv.2) :: rest.map fun kv => (kv.1, JValue.str kv.2)) :
        Except WErr (List UPair)) = .ok (kv :: rest)
    rw [List.mapM_cons, ih2]
    rfl

/-- C1 counterexample: a single response batch `[i1, i2] = [1, 2]` with
no continuation is yielded as `i2` first, then `i1` — not in server page
order as claimed.  Both poll loops buffer the batch and take items with
`Vec::pop`, which removes from the end. -/
theorem c1_counterexample :
    (runGen [("action", "query")] GenState.init [Except.ok (none, [1, 2])] : Trace Nat).outputs
      = [Except.ok 2, Except.ok 1]
    ∧ (runGen [("action", "query")] GenState.init [Except.ok (none, [1, 2])] : Trace Nat).outputs
      ≠ [Except.ok 1, Except.ok 2] := by
  have h := runGen_init_batch [("action", "query")] [1, 2] none [] (by simp)
  rw [show (GenState.mkValues [] none : GenState Nat) = GenState.done from rfl,
    runGen_done] at h
  constructor
  · rw [h]
    simp
  · rw [h]
    simp

/-- C1 amended: the generator stream yields every batch's items in
reverse of the server's response array order (the buffer is drained with
`Vec::pop`, last element first). -/
theorem c1_batch_yield_order (main : List UPair) (items : List α) (rest : List (Resp α)) :
    (runGen main GenState.init (.ok (none, items) :: rest)).outputs
      = items.reverse.map Except.ok := by
  by_cases h : items = []
  · subst h
    rw [runGen_init_empty_done]
    simp
  · rw [runGen_init_batch main items none rest h]
    rw [show (GenState.mkValues [] none : GenState α) = GenState.done from rfl, runGen_done]
    simp

/-- C2: a response with zero items and a present continuation token does
not continue silently — it trips the `assert!(cont.is_none(), "Cannot
continue without return value")`, so the run panics, yields nothing, and
never issues the follow-up request (the scripted second page `[3]` of
the spec's own test scenario is never fetched). -/
theorem c2_empty_page_with_token_panics :
    (∀ (β : Type) (main : List UPair) (c : JValue) (rest : List (Resp β)),
      runGen main GenState.init (.ok (some c, ([] : List β)) :: rest) = ⟨[main], [], true⟩)
    ∧ runGen [("action", "query")] GenState.init
        [Except.ok (some (strObj [("x", "1")]), ([] : List Nat)), Except.ok (none, [3])]
      = ⟨[[("action", "query")]], [], true⟩ := by
  have hgen : ∀ (β : Type) (main : List UPair) (c : JValue) (rest : List (Resp β)),
      runGen main GenState.init (.ok (some c, ([] : List β)) :: rest) = ⟨[main], [], true⟩ :=
    fun β main c rest => runGen_init_empty_token main c rest
  exact ⟨hgen, hgen Nat _ _ _⟩

/-- C4: after a batch arrives with a continuation token (a flat object of
key/value pairs), the next request the generator issues is exactly the
re-encoded main request followed by the token's pairs, unchanged. -/
theorem c4_continuation_roundtrip (main fields : List UPair) (items : List α)
    (rest : List (Resp α)) (h : items ≠ []) :
    (runGen main GenState.init
        (.ok (some (strObj fields), items) :: rest)).requests.take 2
      = [main, main ++ fields] := by
  rw [runGen_init_batch main items _ rest h]
  rw [show (GenState.mkValues [] (some (strObj fields)) : GenState α)
    = GenState.cont (strObj fields) from rfl]
  show main :: (runGen main (GenState.cont (strObj fields)) rest).requests.take 1
    = [main, main ++ fields]
  rw [runGen_cont_first_request main _ fields rest (addSerde_strObj fields)]

/-- Witness for C4: a concrete run with token `{"continue": "-||"}`
(whose value even contains `|`) issues the continuation request with the
pair appended verbatim after the main parameters. -/
theorem c4_continuation_roundtrip_witness :
    (runGen [("action", "query")] GenState.init
        [Except.ok (some (strObj [("continue", "-||")]), [1])] : Trace Nat).requests.take 2
      = [[("action", "query")], [("action", "query"), ("continue", "-||")]] :=
  (c4_continuation_roundtrip [("action", "query")] [("continue", "-||")] [1] []
    (by simp)).trans rfl

/-- C5: a transport or decode error is terminal: on the first request it
yields exactly one `Err`; after a successful first page it yields that
page's items, then exactly one `Err`, and nothing further regardless of
what the transport would answer next — and no panic occurs. -/
theorem c5_error_terminal (main fields : List UPair) (items : List α) (e : WErr)
    (rest : List (Resp α)) (h : items ≠ []) :
    ((runGen main GenState.init (.error e :: rest)).outputs = [.error e]
      ∧ (runGen main GenState.init (.error e :: rest)).panicked = false)
    ∧ ((runGen main GenState.init
          (.ok (some (strObj fields), items) :: .error e :: rest)).outputs
        = items.reverse.map .ok ++ [.error e]
      ∧ (runGen main GenState.init
          (.ok (some (strObj fields), items) :: .error e :: rest)).panicked = false) := by
  constructor
  · rw [runGen_init_error]
    exact ⟨rfl, rfl⟩
  · rw [runGen_init_batch main items _ _ h]
    rw [show (GenState.mkValues [] (some (strObj fields)) : GenState α)
      = GenState.cont (strObj fields) from rfl]
    rw [runGen_cont_error main _ fields e rest (addSerde_strObj fields)]
    exact ⟨rfl, rfl⟩

/-- Witness for C5 at the spec's own scenario: a transport failing on the
second page yields `[i1]`, then exactly one error, then nothing further
even though the script offers a third page. -/
theorem c5_error_terminal_witness :
    (runGen [("a", "q")] GenState.init
        [Except.ok (some (strObj [("x", "1")]), [1]), Except.error (WErr.transport 7),
          Except.ok (none, [9])] : Trace Nat).outputs
      = [Except.ok 1, Except.error (WErr.transport 7)]
    ∧ (runGen [("a", "q")] GenState.init
        [Except.ok (some (strObj [("x", "1")]), [1]), Except.error (WErr.transport 7),
          Except.ok (none, [9])] : Trace Nat).panicked = false :=
  ⟨((c5_error_terminal [("a", "q")] [("x", "1")] [1] (WErr.transport 7) [Except.ok (none, [9])]
      (by simp)).2.1).trans (by simp),
    (c5_error_terminal [("a", "q")] [("x", "1")] [1] (WErr.transport 7) [Except.ok (none, [9])]
      (by simp)).2.2⟩

/-- C3: only the literal string `"Success"` in `login.result` is accepted
— but on any other value the code does not return a structured error: it
panics with the vandalism message, aborting the process. -/
theorem c3_login_failure_panics :
    (∀ s : String, loginResultOk (mkLoginResp s) = true ↔ s = "Success")
    ∧ (∀ s : String, s ≠ "Success" → loginStep (mkLoginResp s) = .panicked vandalMsg)
    ∧ loginStep (mkLoginResp "Success") = .success := by
  have hok : ∀ s : String, loginResultOk (mkLoginResp s) = (s == "Success") := by
    intro s
    simp [mkLoginResp, loginResultOk, jGet]
  refine ⟨fun s => ?_, fun s hs => ?_, ?_⟩
  · rw [hok]
    simp
  · rw [loginStep, hok]
    simp [hs]
  · rw [loginStep, hok]
    simp

/-- Witness for C3: the login response `{"login": {"result": "Failed"}}`
makes the code panic rather than return an error value. -/
theorem c3_login_failure_panics_witness :
    loginStep (mkLoginResp "Failed") = .panicked vandalMsg :=
  c3_login_failure_panics.2.1 "Failed" (by decide)

/-- C9: saving a page whose `changed` flag is `false` (and which carries
its session back-reference) returns success immediately with no effects:
no CSRF token fetch, no edit POST, and no rate-limit tick. -/
theorem c9_save_clean_page_noop (p : Page) (hbot : p.bot = true)
    (hclean : p.changed = false) :
    Page.save p = SaveResult.ok [] := by
  simp [Page.save, hbot, hclean]

/-- Witness for C9: a concrete clean page with a session saves with no
effects. -/
theorem c9_save_clean_page_noop_witness :
    Page.save (Page.mk "text" 5 7 false true) = SaveResult.ok [] :=
  c9_save_clean_page_noop _ rfl rfl
